import Mathlib

/-!
Shallow embedding of the core logic of a face-recognition attendance
tracker: the cooldown-gated attendance state machine of
`AttendanceSystem.mark_attendance` (app.py), the cosine-similarity
template matcher of `FaceRecognitionService` (face_recognition_service.py:
`compare_faces`, `recognize_face`, `verify_face`), and the heuristic
liveness scorer of `AntiSpoofingService` (anti_spoofing_service.py:
`_detect_with_fallback`, `_analyze_color_distribution` and the sibling
signal extractors).

Numeric conventions: Python floats on the attendance and anti-spoofing
side are modelled as rationals; face templates are lists of reals so that
`np.linalg.norm` (a square root) is exact.  Quantities that the source
obtains from external libraries (OpenCV colour conversion, histograms,
FFT, connected components, `np.log2`) are abstracted as fields of the
image structure or as function parameters; every decision made by the
repository's own code is translated from the source.  A Python exception
escaping a `try` block is modelled as an `Except.error` outcome of the
guarded body.
-/

noncomputable section

namespace Facen

/-- Event type string for a clock-in event (`'in'` in the source). -/
def tyIn : String := "in"

/-- Event type string for a clock-out event (`'out'` in the source). -/
def tyOut : String := "out"

/-- One attendance event as stored in a day record:
`{"type": ..., "time": ..., "timestamp": ...}`.  The `timestamp` is `none`
when the stored field is missing/falsy or fails `datetime.fromisoformat`;
`mark_attendance` treats either case as "no cooldown active". -/
structure Event where
  type : String
  time : String
  timestamp : Option ℚ
  deriving DecidableEq, Inhabited

/-- One per-(employee, day) attendance record:
`{"employee": ..., "date": ..., "events": [...]}`. -/
structure Record where
  employee : String
  date : String
  events : List Event
  deriving DecidableEq, Inhabited

/-- The current wall-clock instant: the strings produced by
`strftime("%Y-%m-%d")` and `strftime("%H:%M:%S")`, together with the
absolute time in seconds that `datetime` subtraction
(`total_seconds()`) measures. -/
structure Now where
  date : String
  time : String
  ts : ℚ
  deriving DecidableEq, Inhabited

/-- Python `events[-1]` on a possibly empty list: the last element. -/
def lastElem {α : Type} : List α → Option α
  | [] => none
  | a :: as =>
    match as with
    | [] => some a
    | b :: bs => lastElem (b :: bs)

/-- Python `int(x)`: truncation of a float toward zero. -/
def pyInt (q : ℚ) : Int := if 0 ≤ q then q.floor else -((-q).floor)

/-- The source's `'out' if last_type == 'in' else 'in'`. -/
def oppType (t : String) : String := if t == tyIn then tyOut else tyIn

/-- Predicate used by the record-lookup loop in `mark_attendance`:
`record.get('employee') == employee_name and record.get('date') == today`. -/
def isTodayRecord (employee today : String) (r : Record) : Bool :=
  r.employee == employee && r.date == today

/-- In-place mutation of the first record matching `p` in the attendance
list (the Python loop binds `today_record` to the first match and mutates
that dict). -/
def updateFirst {α : Type} (p : α → Bool) (f : α → α) : List α → List α
  | [] => []
  | a :: as => if p a then f a :: as else a :: updateFirst p f as

/-- The cooldown rejection message of `mark_attendance`. -/
def cooldownMsg (waitSec : Int) : String :=
  s!"Please wait {waitSec} seconds before next attendance event. Cooldown is 2 minutes between IN/OUT for the same person."

/-- The success message of `mark_attendance`
(`f"Clocked {'IN' if next_type == 'in' else 'OUT'} for ... at ..."`; the
fresh-day branch emits the same shape with `next_type = 'in'`). -/
def clockedMsg (nextType employee time : String) : String :=
  let dir := if nextType == tyIn then "IN" else "OUT"
  s!"Clocked {dir} for {employee} at {time}"

/-- The cooldown check of `mark_attendance`: looking at the last event of
today's record, if it carries a parseable timestamp and
`(now - last).total_seconds() < 120`, the call is rejected with
`int(120 - diff)` seconds of remaining wait.  `none` means no rejection
(empty event list, missing/unparseable timestamp, or 120 s elapsed). -/
def cooldownWait (events : List Event) (now : Now) : Option Int :=
  match lastElem events with
  | none => none
  | some lastEvent =>
    match lastEvent.timestamp with
    | none => none
    | some lastTs =>
      if now.ts - lastTs < 120 then some (pyInt (120 - (now.ts - lastTs))) else none

/-- The `next_type` computation of `mark_attendance`: `'in'` when today's
event list is empty, otherwise the opposite of the last event's type. -/
def nextEventType (events : List Event) : String :=
  match lastElem events with
  | none => tyIn
  | some lastEvent => oppType lastEvent.type

/-- `AttendanceSystem.mark_attendance` (app.py).  Returns the updated
attendance list together with the `(success, message)` pair the method
returns.  File persistence (`save_attendance`) is out of scope. -/
def markAttendance (attendance : List Record) (employee : String) (now : Now) :
    List Record × Bool × String :=
  match attendance.find? (isTodayRecord employee now.date) with
  | none =>
    let newRecord : Record := ⟨employee, now.date, [⟨tyIn, now.time, some now.ts⟩]⟩
    (attendance ++ [newRecord], true, clockedMsg tyIn employee now.time)
  | some todayRecord =>
    match cooldownWait todayRecord.events now with
    | some waitSec => (attendance, false, cooldownMsg waitSec)
    | none =>
      let nextType := nextEventType todayRecord.events
      (updateFirst (isTodayRecord employee now.date)
        (fun r => { r with events := r.events ++ [⟨nextType, now.time, some now.ts⟩] })
        attendance,
       true, clockedMsg nextType employee now.time)

/-- Checks that a list of event-type strings alternates, the first one
being `expected`. -/
def altFrom : String → List String → Bool
  | _, [] => true
  | expected, t :: ts => t == expected && altFrom (oppType expected) ts

/-- After consuming an alternating run started at `expected`, the type the
next event must have. -/
def nextExpected : String → List String → String
  | expected, [] => expected
  | expected, _ :: ts => nextExpected (oppType expected) ts

/-- The alternation invariant for one day record: event types strictly
alternate starting with `'in'`. -/
def goodEvents (es : List Event) : Bool :=
  altFrom tyIn (es.map Event.type)

/-- Attendance states reachable from an empty store by any sequence of
`mark_attendance` calls. -/
inductive ReachableAttendance : List Record → Prop
  | init : ReachableAttendance []
  | step (att : List Record) (employee : String) (now : Now) :
      ReachableAttendance att →
      ReachableAttendance (markAttendance att employee now).1

/-- Employee name used by the concrete scenarios. -/
def e1s : String := "E1"

/-- Scenario instant 09:00:00 (32400 s after midnight). -/
def scnNow1 : Now := ⟨"2025-05-05", "09:00:00", 32400⟩

/-- Scenario instant 09:01:00 (32460 s, i.e. 60 s after `scnNow1`). -/
def scnNow2 : Now := ⟨"2025-05-05", "09:01:00", 32460⟩

/-- Scenario instant 09:02:01 (32521 s, i.e. 121 s after `scnNow1`). -/
def scnNow3 : Now := ⟨"2025-05-05", "09:02:01", 32521⟩

/-- Attendance store after the first scenario call. -/
def scnAtt1 : List Record := (markAttendance [] e1s scnNow1).1

/-- The record created by the first scenario call. -/
def scnRec1 : Record := ⟨"E1", "2025-05-05", [⟨"in", "09:00:00", some 32400⟩]⟩

/-- The event created by the first scenario call. -/
def scnEv1 : Event := ⟨"in", "09:00:00", some 32400⟩

/-- Attendance store after the second scenario call (which is rejected,
so it equals `scnAtt1`). -/
def scnAtt2 : List Record := (markAttendance scnAtt1 e1s scnNow2).1

/-- An instant late on one calendar day (23:59:30, 86370 s). -/
def lateNow : Now := ⟨"2025-05-05", "23:59:30", 86370⟩

/-- An instant early on the next calendar day (00:00:30, 86430 s — only
60 s after `lateNow`). -/
def earlyNow : Now := ⟨"2025-05-06", "00:00:30", 86430⟩

/-- Attendance store holding one event recorded at `lateNow`. -/
def crossAtt : List Record := (markAttendance [] e1s lateNow).1

/-- The record inside `crossAtt`. -/
def crossRec : Record := ⟨"E1", "2025-05-05", [⟨"in", "23:59:30", some 86370⟩]⟩

/-- The event inside `crossRec`. -/
def crossEv : Event := ⟨"in", "23:59:30", some 86370⟩

/-- An image as seen by the heuristic anti-spoofing scorer.  The fields
are the measurements that the source computes with OpenCV/NumPy before
its own decision logic runs: `shape` of the array, mean and standard
deviation of the HSV saturation channel, the three 256-bin colour
histograms of `cv2.calcHist`, LBP-map variance and mean Sobel gradient
magnitude, high-frequency and total energy of the log-magnitude FFT
spectrum, and the pixel areas of the connected bright-spot components. -/
structure SpoofImage where
  shape : List Nat
  satMean : ℚ
  satStd : ℚ
  histB : List ℚ
  histG : List ℚ
  histR : List ℚ
  lbpVar : ℚ
  gradMean : ℚ
  highFreqEnergy : ℚ
  totalEnergy : ℚ
  spotSizes : List ℚ
  deriving DecidableEq, Inhabited

/-- `np.mean` of a list of floats. -/
def npMean (l : List ℚ) : ℚ := l.sum / (l.length : ℚ)

/-- `np.max` of a (nonempty) list of floats. -/
def npMax : List ℚ → ℚ
  | [] => 0
  | a :: as => as.foldl max a

/-- The inner `entropy` helper of `_analyze_color_distribution`:
`-np.sum(hist * np.log2(hist + 1e-10))` over the strictly positive bins.
`np.log2` is an external numeric primitive, abstracted as `log2`. -/
def histEntropy (log2 : ℚ → ℚ) (hist : List ℚ) : ℚ :=
  -(((hist.filter (fun h => decide (0 < h))).map
      (fun h => h * log2 (h + 1 / 10000000000))).sum)

/-- `AntiSpoofingService._analyze_color_distribution`: grayscale images
score a neutral 0.5; otherwise the mean of a saturation-statistics bucket
and a histogram-entropy bucket. -/
def analyzeColorDistribution (log2 : ℚ → ℚ) (img : SpoofImage) : ℚ :=
  if img.shape.length = 3 then
    let color_score :=
      if 20 < img.satStd ∧ 50 < img.satMean then 8/10
      else if 10 < img.satStd ∧ 30 < img.satMean then 6/10
      else 3/10
    let avg_entropy :=
      (histEntropy log2 img.histB + histEntropy log2 img.histG +
        histEntropy log2 img.histR) / 3
    let entropy_score :=
      if 6 < avg_entropy then 8/10
      else if 4 < avg_entropy then 6/10
      else 3/10
    (color_score + entropy_score) / 2
  else 1/2

/-- The first bucketed score of the colour-distribution extractor, as the
specification words it (saturation std/mean buckets). -/
def satScoreSpec (img : SpoofImage) : ℚ :=
  if 20 < img.satStd ∧ 50 < img.satMean then 8/10
  else if 10 < img.satStd ∧ 30 < img.satMean then 6/10
  else 3/10

/-- The second bucketed score of the colour-distribution extractor, as the
specification words it: average the Shannon entropies of the three
per-channel histograms and bucket the average. -/
def specEntropyScore (log2 : ℚ → ℚ) (img : SpoofImage) : ℚ :=
  let avg_entropy :=
    (histEntropy log2 img.histB + histEntropy log2 img.histG +
      histEntropy log2 img.histR) / 3
  if 6 < avg_entropy then 8/10
  else if 4 < avg_entropy then 6/10
  else 3/10

/-- `AntiSpoofingService._analyze_texture`: joint bucket on LBP variance
and mean gradient magnitude. -/
def analyzeTexture (img : SpoofImage) : ℚ :=
  if 1000 < img.lbpVar ∧ 10 < img.gradMean then 8/10
  else if 500 < img.lbpVar ∧ 5 < img.gradMean then 6/10
  else 3/10

/-- `AntiSpoofingService._analyze_frequency_domain`: bucket on the
high-frequency energy share of the log-magnitude spectrum. -/
def analyzeFrequencyDomain (img : SpoofImage) : ℚ :=
  let high_freq_frac := img.highFreqEnergy / (img.totalEnergy + 1 / 10000000000)
  if 3/10 < high_freq_frac then 8/10
  else if 2/10 < high_freq_frac then 6/10
  else 3/10

/-- `AntiSpoofingService._analyze_reflections`: bucket on average and
maximum bright-spot component area; 0.4 when there is no bright spot. -/
def analyzeReflections (img : SpoofImage) : ℚ :=
  match img.spotSizes with
  | [] => 4/10
  | s :: rest =>
    let avg_spot_size := npMean (s :: rest)
    let max_spot_size := npMax (s :: rest)
    if (10 ≤ avg_spot_size ∧ avg_spot_size ≤ 100) ∧ max_spot_size ≤ 500 then 8/10
    else if avg_spot_size ≤ 200 then 6/10
    else 3/10

/-- The default liveness threshold (`self.threshold = 0.5`). -/
def livenessThreshold : ℚ := 1/2

/-- The body of `AntiSpoofingService._detect_with_fallback`: collect the
four signal scores, average them, compare with the threshold. -/
def detectWithFallbackBody (log2 : ℚ → ℚ) (threshold : ℚ) (img : SpoofImage) :
    Bool × ℚ :=
  let color_score := analyzeColorDistribution log2 img
  let texture_score := analyzeTexture img
  let frequency_score := analyzeFrequencyDomain img
  let reflection_score := analyzeReflections img
  let scores := [color_score, texture_score, frequency_score, reflection_score]
  let final_score := npMean scores
  (decide (threshold < final_score), final_score)

/-- The `try`/`except` wrapper of `_detect_with_fallback`: an exception
raised while scoring (an `Except.error` outcome of the body) yields the
fail-open verdict `(True, 1.0)`; a normal outcome is passed through. -/
def runDetectWithFallback (outcome : Except String (Bool × ℚ)) : Bool × ℚ :=
  match outcome with
  | Except.ok result => result
  | Except.error _ => (true, 1)

/-- `AntiSpoofingService._detect_with_fallback` on an image whose
processing raises no exception. -/
def detectWithFallback (log2 : ℚ → ℚ) (threshold : ℚ) (img : SpoofImage) :
    Bool × ℚ :=
  runDetectWithFallback (Except.ok (detectWithFallbackBody log2 threshold img))

/-- A concrete colour image measurement used by the witnesses. -/
def wImg : SpoofImage := ⟨[80, 80, 3], 0, 0, [], [], [], 0, 0, 0, 0, []⟩

/-- A concrete stand-in for `np.log2` used by the witnesses. -/
def zeroLog : ℚ → ℚ := fun _ => 0

/-- `np.dot` of two equal-length float vectors. -/
def dotp (a b : List ℝ) : ℝ := (List.zipWith (fun x y => x * y) a b).sum

/-- `np.linalg.norm` of a float vector. -/
def npNorm (v : List ℝ) : ℝ := Real.sqrt (dotp v v)

/-- `np.clip(x, lo, hi)`. -/
def npClip (x lo hi : ℝ) : ℝ := min (max x lo) hi

/-- `FaceRecognitionService.compare_faces` on the configured cosine
metric: cosine similarity mapped through `1 - (1 - cos)` and clipped to
`[0, 1]`; zero-norm inputs yield `0.0`. -/
def compareFaces (template1 template2 : List ℝ) : ℝ :=
  let dot_product := dotp template1 template2
  let norm1 := npNorm template1
  let norm2 := npNorm template2
  if norm1 = 0 ∨ norm2 = 0 then 0
  else
    let cosine_sim := dot_product / (norm1 * norm2)
    let cosine_distance := 1 - cosine_sim
    let similarity := 1 - cosine_distance
    npClip similarity 0 1

/-- A row of the `Employee` table as the matcher sees it. -/
structure EmployeeRec where
  employee_id : String
  is_active : Bool
  face_template : Option (List ℝ)

/-- `Employee.get_face_template_array` (models.py): `None` when the stored
`face_template` is missing or falsy (an empty JSON array). -/
def getFaceTemplateArray (e : EmployeeRec) : Option (List ℝ) :=
  match e.face_template with
  | none => none
  | some t => if t.isEmpty then none else some t

/-- One iteration of the best-match loop of `recognize_face`, on an
already-extracted `(identity, similarity)` pair: accept when the
similarity strictly beats the best so far and clears the threshold. -/
def selStep (θ : ℝ) (acc : Option String × ℝ) (p : String × ℝ) :
    Option String × ℝ :=
  if acc.2 < p.2 ∧ θ ≤ p.2 then (some p.1, p.2) else acc

/-- One iteration of the loop of `recognize_face` over an employee row:
rows without a template are skipped (`continue`). -/
def recognizeStep (θ : ℝ) (q : List ℝ) (acc : Option String × ℝ)
    (e : EmployeeRec) : Option String × ℝ :=
  match getFaceTemplateArray e with
  | none => acc
  | some t => selStep θ acc (e.employee_id, compareFaces q t)

/-- `FaceRecognitionService.recognize_face` from the point where the query
template has been extracted: scan the active employees in order, keep the
best thresholded similarity, return `None` when nothing clears the
threshold (or no active employee exists).  The final `if best_match:`
of the source is Python truthiness on an `Optional[str]`: it is falsy both
for `None` and for the empty string, so an accepted best match whose
employee id is `""` is also reported as no match. -/
def recognizeFace (θ : ℝ) (q : List ℝ) (emps : List EmployeeRec) :
    Option (String × ℝ) :=
  let employees := emps.filter (fun e => e.is_active)
  if employees.isEmpty then none
  else
    match employees.foldl (recognizeStep θ q) (none, 0) with
    | (some best_match, best_score) =>
      if best_match.isEmpty then none else some (best_match, best_score)
    | (none, _) => none

/-- The `(identity, similarity)` pairs that the loop of `recognize_face`
actually examines, in iteration order. -/
def simsOf (q : List ℝ) (emps : List EmployeeRec) : List (String × ℝ) :=
  (emps.filter (fun e => e.is_active)).filterMap
    (fun e => (getFaceTemplateArray e).map (fun t => (e.employee_id, compareFaces q t)))

/-- The default recognition threshold (`self.threshold = 0.4`). -/
def recognitionThreshold : ℝ := 0.4

/-- An active enrolled row whose employee id is the empty string, used to
exhibit the source's truthiness behaviour on the best match. -/
def emptyIdEmp : EmployeeRec := ⟨"", true, some [1, 0]⟩

/-- `FaceRecognitionService.verify_face` with the query-template
extraction outcome passed in: template extraction failure, an unknown or
inactive employee id, or a missing stored template each short-circuit to
`(False, 0.0)`; otherwise the single comparison decides. -/
def verifyFace (θ : ℝ) (queryTemplate : Option (List ℝ)) (employee_id : String)
    (emps : List EmployeeRec) : Bool × ℝ :=
  match queryTemplate with
  | none => (false, 0)
  | some q =>
    match emps.find? (fun e => e.employee_id == employee_id && e.is_active) with
    | none => (false, 0)
    | some employee =>
      match getFaceTemplateArray employee with
      | none => (false, 0)
      | some t =>
        let similarity := compareFaces q t
        (if θ ≤ similarity then true else false, similarity)

/-- Finding still succeeds, and returns the updated record, after the
first match is updated in place, provided the update preserves the
predicate. -/
lemma find?_updateFirst {α : Type} {p : α → Bool} {f : α → α} {l : List α}
    {a : α} (h : l.find? p = some a) (hpf : p (f a) = true) :
    (updateFirst p f l).find? p = some (f a) := by
  induction l with
  | nil => simp at h
  | cons x xs ih =>
    by_cases hx : p x
    · rw [List.find?_cons_of_pos _ hx] at h
      injection h with h
      subst h
      simp [updateFirst, hx, List.find?_cons_of_pos _ hpf]
    · rw [List.find?_cons_of_neg _ hx] at h
      simp only [updateFirst, hx, if_false, Bool.false_eq_true, if_neg]
      rw [List.find?_cons_of_neg _ hx]
      exact ih h

/-- On nonnegative arguments, Python truncation agrees with the floor. -/
lemma pyInt_eq_floor (q : ℚ) (h : 0 ≤ q) : pyInt q = Int.floor q := by
  unfold pyInt
  rw [if_pos h, Rat.floor_def', Rat.floor_def]

/-- Claim C1: for an employee with a record for the current day whose last
event has a parseable timestamp, `mark_attendance` rejects with `ok=false`
and the whole-second remaining-wait message, leaving the stored history
unchanged, whenever less than 120 seconds have elapsed since that event;
when at least 120 seconds have elapsed it appends an event of the opposite
type and returns `ok=true`. -/
theorem mark_attendance_cooldown_toggle
    (att : List Record) (e : String) (now : Now) (r : Record) (last : Event)
    (lastTs : ℚ)
    (hfind : att.find? (isTodayRecord e now.date) = some r)
    (hlast : lastElem r.events = some last)
    (hts : last.timestamp = some lastTs) :
    (now.ts - lastTs < 120 →
      markAttendance att e now =
        (att, false, cooldownMsg (pyInt (120 - (now.ts - lastTs))))) ∧
    (120 ≤ now.ts - lastTs →
      (markAttendance att e now).2.1 = true ∧
      (markAttendance att e now).1.find? (isTodayRecord e now.date) =
        some ⟨r.employee, r.date,
          r.events ++ [⟨oppType last.type, now.time, some now.ts⟩]⟩) := by
  constructor
  · intro hlt
    have hcool : cooldownWait r.events now =
        some (pyInt (120 - (now.ts - lastTs))) := by
      simp [cooldownWait, hlast, hts, hlt]
    simp [markAttendance, hfind, hcool]
  · intro hge
    have hnlt : ¬(now.ts - lastTs < 120) := not_lt.mpr hge
    have hcool : cooldownWait r.events now = none := by
      simp [cooldownWait, hlast, hts, hnlt]
    have hnext : nextEventType r.events = oppType last.type := by
      simp [nextEventType, hlast]
    have hp : isTodayRecord e now.date r = true := List.find?_some hfind
    constructor
    · simp [markAttendance, hfind, hcool]
    · simp only [markAttendance, hfind, hcool, hnext]
      exact find?_updateFirst hfind hp

/-- Concrete run of `mark_attendance_cooldown_toggle`: the second scenario
call, 60 seconds after the first, is rejected with a 60-second wait. -/
theorem mark_attendance_cooldown_toggle_witness :
    markAttendance scnAtt1 e1s scnNow2 = (scnAtt1, false, cooldownMsg 60) := by
  have h := (mark_attendance_cooldown_toggle scnAtt1 e1s scnNow2 scnRec1 scnEv1
      32400 (by decide) (by decide) rfl).1 (by norm_num [scnNow2])
  have h60 : pyInt (120 - (scnNow2.ts - 32400)) = 60 := by
    have he : (120 : ℚ) - (scnNow2.ts - 32400) = 60 := by norm_num [scnNow2]
    rw [he, pyInt_eq_floor _ (by norm_num)]
    norm_num
  rw [h60] at h
  exact h

/-- Claim C4: for an employee with no record for the current day,
`mark_attendance` unconditionally succeeds (no cooldown check) and records
a fresh record whose single event has type `'in'`. -/
theorem mark_attendance_fresh_day_in
    (att : List Record) (e : String) (now : Now)
    (h : att.find? (isTodayRecord e now.date) = none) :
    markAttendance att e now =
      (att ++ [⟨e, now.date, [⟨tyIn, now.time, some now.ts⟩]⟩], true,
        clockedMsg tyIn e now.time) := by
  simp [markAttendance, h]

/-- Concrete run of `mark_attendance_fresh_day_in` on an empty store. -/
theorem mark_attendance_fresh_day_in_witness :
    markAttendance [] e1s scnNow1 =
      ([⟨e1s, scnNow1.date, [⟨tyIn, scnNow1.time, some scnNow1.ts⟩]⟩], true,
        clockedMsg tyIn e1s scnNow1.time) := by
  have h := mark_attendance_fresh_day_in [] e1s scnNow1 rfl
  simpa using h

/-- Claim C2 as stated is false on the code: only 60 seconds after an
event recorded late on the previous calendar day, the next
`mark_attendance` call is accepted, because the lookup is keyed by the
current date and finds no record for the new day. -/
theorem cooldown_cross_day_counterexample :
    earlyNow.ts - lateNow.ts < 120 ∧
    (markAttendance crossAtt e1s earlyNow).2.1 = true := by
  constructor
  · norm_num [earlyNow, lateNow]
  · decide

/-- Claim C2 (amended): the 120-second cooldown is enforced only against
the last event of the employee's record for the current calendar day; a
call made less than 120 seconds after an event recorded on a previous
calendar day is not rejected — the new day starts fresh with an
unconditional `'in'` event. -/
theorem cooldown_not_enforced_across_days
    (att : List Record) (e : String) (now : Now) (r : Record) (last : Event)
    (lastTs : ℚ)
    (hr : r ∈ att) (hre : r.employee = e) (hdate : r.date ≠ now.date)
    (hlast : lastElem r.events = some last) (hts : last.timestamp = some lastTs)
    (hclose : now.ts - lastTs < 120)
    (hnone : ∀ x ∈ att, ¬(x.employee = e ∧ x.date = now.date)) :
    (markAttendance att e now).2.1 = true ∧
    (markAttendance att e now).1 =
      att ++ [⟨e, now.date, [⟨tyIn, now.time, some now.ts⟩]⟩] := by
  have hfind : att.find? (isTodayRecord e now.date) = none := by
    rw [List.find?_eq_none]
    intro x hx
    simpa [isTodayRecord] using hnone x hx
  constructor
  · simp [markAttendance, hfind]
  · simp [markAttendance, hfind]

/-- Concrete run of `cooldown_not_enforced_across_days` across a midnight
boundary, 60 seconds after the previous event. -/
theorem cooldown_not_enforced_across_days_witness :
    (markAttendance crossAtt e1s earlyNow).2.1 = true ∧
    (markAttendance crossAtt e1s earlyNow).1 =
      crossAtt ++ [⟨e1s, earlyNow.date, [⟨tyIn, earlyNow.time, some earlyNow.ts⟩]⟩] :=
  cooldown_not_enforced_across_days crossAtt e1s earlyNow crossRec crossEv 86370
    (by decide) rfl (by decide) (by decide) rfl (by norm_num [earlyNow])
    (by decide)

/-- Claim C9 as stated is false on the code: after the 09:00:00 `'in'`
event, the 09:01:00 call (60 elapsed seconds) is rejected with a wait of
60 seconds, not 59. -/
theorem scenario_wait_message_counterexample :
    (markAttendance scnAtt1 e1s scnNow2).2.1 = false ∧
    (markAttendance scnAtt1 e1s scnNow2).2.2 = cooldownMsg 60 ∧
    cooldownMsg 60 ≠ cooldownMsg 59 := by
  have hfind : scnAtt1.find? (isTodayRecord e1s scnNow2.date) = some scnRec1 := by
    decide
  have hlt : scnNow2.ts - (32400 : ℚ) < 120 := by norm_num [scnNow2]
  have h60 : pyInt (120 - (scnNow2.ts - 32400)) = 60 := by
    have he : (120 : ℚ) - (scnNow2.ts - 32400) = 60 := by norm_num [scnNow2]
    rw [he, pyInt_eq_floor _ (by norm_num)]
    norm_num
  have hcool : cooldownWait scnRec1.events scnNow2 = some 60 := by
    show (if scnNow2.ts - 32400 < 120
        then some (pyInt (120 - (scnNow2.ts - 32400))) else none) = some 60
    rw [if_pos hlt, h60]
  have hmark : markAttendance scnAtt1 e1s scnNow2 = (scnAtt1, false, cooldownMsg 60) := by
    simp only [markAttendance, hfind, hcool]
  refine ⟨by rw [hmark], by rw [hmark], by decide⟩

/-- Claim C9 (amended): marking attendance for `E1` at 09:00:00 succeeds
with type `'in'`; marking again at 09:01:00 is rejected with a message
reporting a wait of 60 seconds and leaves the store unchanged; marking at
09:02:01 succeeds with type `'out'`. -/
theorem attendance_scenario_amended :
    (markAttendance [] e1s scnNow1).2.1 = true ∧
    (markAttendance [] e1s scnNow1).1.headI.events.map Event.type = [tyIn] ∧
    markAttendance scnAtt1 e1s scnNow2 = (scnAtt1, false, cooldownMsg 60) ∧
    (markAttendance scnAtt2 e1s scnNow3).2.1 = true ∧
    (markAttendance scnAtt2 e1s scnNow3).1.headI.events.map Event.type =
      [tyIn, tyOut] := by
  have hfind : scnAtt1.find? (isTodayRecord e1s scnNow2.date) = some scnRec1 := by
    decide
  have hlt : scnNow2.ts - (32400 : ℚ) < 120 := by norm_num [scnNow2]
  have h60 : pyInt (120 - (scnNow2.ts - 32400)) = 60 := by
    have he : (120 : ℚ) - (scnNow2.ts - 32400) = 60 := by norm_num [scnNow2]
    rw [he, pyInt_eq_floor _ (by norm_num)]
    norm_num
  have hcool : cooldownWait scnRec1.events scnNow2 = some 60 := by
    show (if scnNow2.ts - 32400 < 120
        then some (pyInt (120 - (scnNow2.ts - 32400))) else none) = some 60
    rw [if_pos hlt, h60]
  have hmark : markAttendance scnAtt1 e1s scnNow2 = (scnAtt1, false, cooldownMsg 60) := by
    simp only [markAttendance, hfind, hcool]
  have hatt2 : scnAtt2 = scnAtt1 := by
    simp only [scnAtt2, hmark]
  have hfind3 : scnAtt1.find? (isTodayRecord e1s scnNow3.date) = some scnRec1 := by
    decide
  have hge : ¬(scnNow3.ts - (32400 : ℚ) < 120) := by norm_num [scnNow3]
  have hcool3 : cooldownWait scnRec1.events scnNow3 = none := by
    show (if scnNow3.ts - 32400 < 120
        then some (pyInt (120 - (scnNow3.ts - 32400))) else none) = none
    rw [if_neg hge]
  have hnext : nextEventType scnRec1.events = tyOut := by decide
  have hmark3 : markAttendance scnAtt1 e1s scnNow3 =
      (updateFirst (isTodayRecord e1s scnNow3.date)
        (fun r => { r with
          events := r.events ++ [⟨tyOut, scnNow3.time, some scnNow3.ts⟩] })
        scnAtt1,
       true, clockedMsg tyOut e1s scnNow3.time) := by
    simp only [markAttendance, hfind3, hcool3, hnext]
  refine ⟨by decide, by decide, hmark, ?_, ?_⟩
  · rw [hatt2, hmark3]
  · rw [hatt2, hmark3]
    decide

/-- A member of `updateFirst p f l` is a member of `l` or the image under
`f` of the first `p`-match of `l`. -/
lemma mem_updateFirst {α : Type} {p : α → Bool} {f : α → α} {l : List α} {x : α}
    (hx : x ∈ updateFirst p f l) :
    x ∈ l ∨ ∃ a, l.find? p = some a ∧ x = f a := by
  induction l with
  | nil => simp [updateFirst] at hx
  | cons r rs ih =>
    by_cases hp : p r
    · rw [show updateFirst p f (r :: rs) = f r :: rs from by simp [updateFirst, hp]] at hx
      rcases List.mem_cons.mp hx with h | h
      · exact Or.inr ⟨r, List.find?_cons_of_pos _ hp, h⟩
      · exact Or.inl (List.mem_cons_of_mem _ h)
    · rw [show updateFirst p f (r :: rs) = r :: updateFirst p f rs from by
        simp [updateFirst, hp]] at hx
      rcases List.mem_cons.mp hx with h | h
      · exact Or.inl (h ▸ List.mem_cons_self r rs)
      · rcases ih h with h2 | ⟨a, ha, hfa⟩
        · exact Or.inl (List.mem_cons_of_mem _ h2)
        · exact Or.inr ⟨a, by rw [List.find?_cons_of_neg _ hp]; exact ha, hfa⟩

/-- An empty last element means an empty list. -/
lemma lastElem_eq_none {α : Type} {l : List α} (h : lastElem l = none) : l = [] := by
  induction l with
  | nil => rfl
  | cons a as ih =>
    cases as with
    | nil => simp [lastElem] at h
    | cons b bs =>
      have h2 : lastElem (b :: bs) = none := by simpa [lastElem] using h
      exact absurd (ih h2) (List.cons_ne_nil b bs)

/-- `lastElem` commutes with `map`. -/
lemma lastElem_map {α β : Type} (f : α → β) (l : List α) :
    lastElem (l.map f) = (lastElem l).map f := by
  induction l with
  | nil => rfl
  | cons a as ih =>
    cases as with
    | nil => rfl
    | cons b bs => simpa [lastElem] using ih

/-- Appending one element to an alternating run stays alternating exactly
when the new element carries the expected next type. -/
lemma altFrom_append (x : String) (ts : List String) (y : String) :
    altFrom x (ts ++ [y]) = (altFrom x ts && (y == nextExpected x ts)) := by
  induction ts generalizing x with
  | nil => simp [altFrom, nextExpected]
  | cons t ts ih => simp [altFrom, nextExpected, ih, Bool.and_assoc]

/-- On an alternating run, the expected next type is the opposite of the
last type of the run. -/
lemma nextExpected_eq_opp (x t : String) (ts : List String)
    (hlast : lastElem ts = some t) (halt : altFrom x ts = true) :
    nextExpected x ts = oppType t := by
  induction ts generalizing x with
  | nil => simp [lastElem] at hlast
  | cons a rest ih =>
    cases rest with
    | nil =>
      simp [lastElem] at hlast
      simp [altFrom] at halt
      subst hlast
      simp [nextExpected, halt]
    | cons b bs =>
      have hlast2 : lastElem (b :: bs) = some t := by simpa [lastElem] using hlast
      have hstep : altFrom x (a :: b :: bs) =
          ((a == x) && altFrom (oppType x) (b :: bs)) := rfl
      rw [hstep, Bool.and_eq_true] at halt
      have h3 := ih (oppType x) hlast2 halt.2
      simpa [nextExpected] using h3

/-- Appending the event type that `mark_attendance` chooses preserves the
alternation invariant. -/
lemma goodEvents_append (es : List Event) (ev : Event)
    (hgood : goodEvents es = true) (hty : ev.type = nextEventType es) :
    goodEvents (es ++ [ev]) = true := by
  unfold goodEvents at hgood ⊢
  rw [List.map_append]
  simp only [List.map_cons, List.map_nil]
  rw [altFrom_append, hgood, Bool.true_and, beq_iff_eq, hty]
  cases hl : lastElem es with
  | none =>
    have h0 : es = [] := lastElem_eq_none hl
    subst h0
    simp [nextEventType, nextExpected, lastElem]
  | some last =>
    have hmap : lastElem (es.map Event.type) = some last.type := by
      rw [lastElem_map, hl]; rfl
    rw [nextExpected_eq_opp tyIn last.type _ hmap hgood]
    simp [nextEventType, hl]

/-- One `mark_attendance` call preserves the alternation invariant of
every stored record. -/
lemma markAttendance_preserves_good (att : List Record) (e : String) (now : Now)
    (h : ∀ r ∈ att, goodEvents r.events = true) :
    ∀ x ∈ (markAttendance att e now).1, goodEvents x.events = true := by
  intro x hx
  rcases hfind : att.find? (isTodayRecord e now.date) with _ | r
  · rw [show (markAttendance att e now).1 =
        att ++ [⟨e, now.date, [⟨tyIn, now.time, some now.ts⟩]⟩] from by
      simp [markAttendance, hfind]] at hx
    rcases List.mem_append.mp hx with h1 | h1
    · exact h x h1
    · rw [List.mem_singleton.mp h1]
      rfl
  · rcases hcool : cooldownWait r.events now with _ | w
    · rw [show (markAttendance att e now).1 =
          updateFirst (isTodayRecord e now.date)
            (fun rr => { rr with events := rr.events ++
              [⟨nextEventType r.events, now.time, some now.ts⟩] }) att from by
        simp [markAttendance, hfind, hcool]] at hx
      rcases mem_updateFirst hx with h1 | ⟨a, ha, hfa⟩
      · exact h x h1
      · rw [hfind] at ha
        injection ha with ha
        subst ha
        subst hfa
        exact goodEvents_append r.events _ (h r (List.mem_of_find?_eq_some hfind)) rfl
    · rw [show (markAttendance att e now).1 = att from by
        simp [markAttendance, hfind, hcool]] at hx
      exact h x hx

/-- Claim C3: in every attendance state reachable from an empty store by
`mark_attendance` calls, the event types of each per-day record strictly
alternate starting with `'in'`. -/
theorem mark_attendance_alternation_invariant
    (att : List Record) (h : ReachableAttendance att) :
    ∀ r ∈ att, goodEvents r.events = true := by
  induction h with
  | init => intro r hr; simp at hr
  | step att e now _ ih => exact markAttendance_preserves_good att e now ih

/-- Concrete run of `mark_attendance_alternation_invariant` after one
call. -/
theorem mark_attendance_alternation_invariant_witness :
    goodEvents ((markAttendance [] e1s scnNow1).1.headI.events) = true :=
  mark_attendance_alternation_invariant _
    (ReachableAttendance.step [] e1s scnNow1 ReachableAttendance.init) _ (by decide)

/-- Claim C6: whenever an internal exception is raised during heuristic
liveness scoring (an `Except.error` outcome of the guarded body), the
returned verdict is exactly `(is_real = true, score = 1.0)` — the
fail-open policy, so a caller is never blocked by an engine error. -/
theorem liveness_exception_fail_open (e : String) :
    runDetectWithFallback (Except.error e) = (true, 1) := rfl

/-- Claim C7: the heuristic liveness verdict's score is the arithmetic
mean of the four signal scores, `is_real` holds exactly when that mean is
strictly above the threshold, and the default threshold is 0.5. -/
theorem liveness_score_mean_threshold (log2 : ℚ → ℚ) (θ : ℚ) (img : SpoofImage) :
    (detectWithFallback log2 θ img).2 =
      (analyzeColorDistribution log2 img + analyzeTexture img +
        analyzeFrequencyDomain img + analyzeReflections img) / 4 ∧
    ((detectWithFallback log2 θ img).1 = true ↔
      θ < (analyzeColorDistribution log2 img + analyzeTexture img +
        analyzeFrequencyDomain img + analyzeReflections img) / 4) ∧
    livenessThreshold = 1/2 := by
  have hmean : npMean [analyzeColorDistribution log2 img, analyzeTexture img,
      analyzeFrequencyDomain img, analyzeReflections img] =
      (analyzeColorDistribution log2 img + analyzeTexture img +
        analyzeFrequencyDomain img + analyzeReflections img) / 4 := by
    simp [npMean]
    ring
  have hbody : detectWithFallback log2 θ img =
      (decide (θ < npMean [analyzeColorDistribution log2 img, analyzeTexture img,
        analyzeFrequencyDomain img, analyzeReflections img]),
       npMean [analyzeColorDistribution log2 img, analyzeTexture img,
        analyzeFrequencyDomain img, analyzeReflections img]) := rfl
  refine ⟨?_, ?_, rfl⟩
  · rw [hbody]
    exact hmean
  · rw [hbody]
    simp only [decide_eq_true_eq, hmean]

/-- Claim C8: for every colour image, the colour-distribution score is the
mean of two bucketed scores, the second obtained by averaging the Shannon
entropies of the three 256-bin channel histograms and bucketing the
average as greater-than-6 to 0.8, greater-than-4 to 0.6, else 0.3. -/
theorem color_distribution_refines_spec (log2 : ℚ → ℚ) (img : SpoofImage)
    (h : img.shape.length = 3) :
    analyzeColorDistribution log2 img =
      (satScoreSpec img + specEntropyScore log2 img) / 2 ∧
    (satScoreSpec img = 8/10 ∨ satScoreSpec img = 6/10 ∨ satScoreSpec img = 3/10) ∧
    (specEntropyScore log2 img = 8/10 ∨ specEntropyScore log2 img = 6/10 ∨
      specEntropyScore log2 img = 3/10) := by
  refine ⟨?_, ?_, ?_⟩
  · unfold analyzeColorDistribution satScoreSpec specEntropyScore
    rw [if_pos h]
  · unfold satScoreSpec
    split_ifs <;> simp
  · unfold specEntropyScore
    dsimp only
    split_ifs <;> simp

/-- Concrete run of `color_distribution_refines_spec` on a colour image
measurement. -/
theorem color_distribution_refines_spec_witness :
    analyzeColorDistribution zeroLog wImg =
      (satScoreSpec wImg + specEntropyScore zeroLog wImg) / 2 ∧
    (satScoreSpec wImg = 8/10 ∨ satScoreSpec wImg = 6/10 ∨ satScoreSpec wImg = 3/10) ∧
    (specEntropyScore zeroLog wImg = 8/10 ∨ specEntropyScore zeroLog wImg = 6/10 ∨
      specEntropyScore zeroLog wImg = 3/10) :=
  color_distribution_refines_spec zeroLog wImg rfl

/-- `dotp` on two cons cells. -/
lemma dotp_cons (x y : ℝ) (a b : List ℝ) :
    dotp (x :: a) (y :: b) = x * y + dotp a b := by
  simp [dotp]

/-- A self dot product is nonnegative. -/
lemma dotp_self_nonneg (q : List ℝ) : 0 ≤ dotp q q := by
  induction q with
  | nil => simp [dotp]
  | cons x l ih =>
    rw [dotp_cons]
    have hx := mul_self_nonneg x
    linarith

/-- A self dot product of a vector with a nonzero entry is positive. -/
lemma dotp_self_pos (q : List ℝ) (hq : ∃ x ∈ q, x ≠ 0) : 0 < dotp q q := by
  induction q with
  | nil => simp at hq
  | cons x l ih =>
    rw [dotp_cons]
    rcases hq with ⟨y, hy, hy0⟩
    rcases List.mem_cons.mp hy with rfl | hyl
    · have h1 : 0 < y * y := mul_self_pos.mpr hy0
      have h2 := dotp_self_nonneg l
      linarith
    · have h1 := ih ⟨y, hyl, hy0⟩
      have h2 := mul_self_nonneg x
      linarith

/-- The clipped similarity never exceeds 1. -/
lemma compareFaces_le_one (t1 t2 : List ℝ) : compareFaces t1 t2 ≤ 1 := by
  unfold compareFaces
  dsimp only
  split_ifs with h
  · norm_num
  · unfold npClip
    exact min_le_right _ _

/-- Comparing a nonzero template with itself yields similarity exactly 1,
as in the source (cosine of a vector with itself, clipped to `[0, 1]`). -/
lemma compareFaces_self (q : List ℝ) (hq : ∃ x ∈ q, x ≠ 0) :
    compareFaces q q = 1 := by
  have hd : 0 < dotp q q := dotp_self_pos q hq
  have hs : 0 < npNorm q := by
    unfold npNorm
    exact Real.sqrt_pos.mpr hd
  have hn : npNorm q ≠ 0 := ne_of_gt hs
  have hnn : npNorm q * npNorm q = dotp q q := by
    unfold npNorm
    exact Real.mul_self_sqrt hd.le
  unfold compareFaces
  dsimp only
  rw [if_neg (by push_neg; exact ⟨hn, hn⟩)]
  rw [hnn, div_self (ne_of_gt hd)]
  have h1 : (1 : ℝ) - (1 - 1) = 1 := by norm_num
  rw [h1]
  unfold npClip
  rw [max_eq_left zero_le_one, min_self]

/-- Every similarity the matcher loop examines is a `compare_faces`
output. -/
lemma simsOf_snd_mem {q : List ℝ} {emps : List EmployeeRec} {p : String × ℝ}
    (hp : p ∈ simsOf q emps) : ∃ t, p.2 = compareFaces q t := by
  unfold simsOf at hp
  rcases List.mem_filterMap.mp hp with ⟨e, _, hfe⟩
  rcases hge : getFaceTemplateArray e with _ | t
  · rw [hge] at hfe
    simp at hfe
  · rw [hge] at hfe
    simp at hfe
    exact ⟨t, by rw [← hfe]⟩

/-- Every similarity the matcher loop examines is at most 1. -/
lemma simsOf_snd_le_one {q : List ℝ} {emps : List EmployeeRec} {p : String × ℝ}
    (hp : p ∈ simsOf q emps) : p.2 ≤ 1 := by
  rcases simsOf_snd_mem hp with ⟨t, ht⟩
  rw [ht]
  exact compareFaces_le_one q t

/-- Every identity the matcher loop examines is the id of an active
enrolled row. -/
lemma simsOf_fst_mem {q : List ℝ} {emps : List EmployeeRec} {p : String × ℝ}
    (hp : p ∈ simsOf q emps) :
    ∃ e ∈ emps, e.is_active = true ∧ p.1 = e.employee_id := by
  unfold simsOf at hp
  rcases List.mem_filterMap.mp hp with ⟨e, hef, hfe⟩
  rcases List.mem_filter.mp hef with ⟨he, hact⟩
  rcases hge : getFaceTemplateArray e with _ | t
  · rw [hge] at hfe
    simp at hfe
  · rw [hge] at hfe
    simp at hfe
    exact ⟨e, he, hact, by rw [← hfe]⟩

/-- The employee-row fold of `recognize_face` equals the pair fold over
the examined `(identity, similarity)` list. -/
lemma foldl_recognizeStep_eq (θ : ℝ) (q : List ℝ) (l : List EmployeeRec) :
    ∀ acc : Option String × ℝ,
      l.foldl (recognizeStep θ q) acc =
        (l.filterMap (fun e => (getFaceTemplateArray e).map
          (fun t => (e.employee_id, compareFaces q t)))).foldl (selStep θ) acc := by
  induction l with
  | nil => intro acc; rfl
  | cons e l ih =>
    intro acc
    rcases hge : getFaceTemplateArray e with _ | t
    · have h1 : recognizeStep θ q acc e = acc := by
        unfold recognizeStep
        rw [hge]
      have h2 : (fun e => (getFaceTemplateArray e).map
          (fun t => (e.employee_id, compareFaces q t))) e = none := by
        simp [hge]
      rw [List.foldl_cons, h1,
        @List.filterMap_cons_none _ _
          (fun e => (getFaceTemplateArray e).map
            (fun t => (e.employee_id, compareFaces q t))) e l h2]
      exact ih acc
    · have h1 : recognizeStep θ q acc e =
          selStep θ acc (e.employee_id, compareFaces q t) := by
        unfold recognizeStep
        rw [hge]
      have h2 : (fun e => (getFaceTemplateArray e).map
          (fun t => (e.employee_id, compareFaces q t))) e =
          some (e.employee_id, compareFaces q t) := by
        simp [hge]
      rw [List.foldl_cons, h1,
        @List.filterMap_cons_some _ _
          (fun e => (getFaceTemplateArray e).map
            (fun t => (e.employee_id, compareFaces q t))) e l
          (e.employee_id, compareFaces q t) h2,
        List.foldl_cons]
      exact ih _

/-- A fold that never meets an acceptable similarity keeps its
accumulator. -/
lemma selFold_const (θ : ℝ) (o : Option String) (b : ℝ) :
    ∀ l : List (String × ℝ), (∀ p ∈ l, p.2 ≤ b ∨ p.2 < θ) →
      l.foldl (selStep θ) (o, b) = (o, b) := by
  intro l
  induction l with
  | nil => intro h; rfl
  | cons p l ih =>
    intro h
    have hp := h p (List.mem_cons_self p l)
    have hsel : selStep θ (o, b) p = (o, b) := by
      unfold selStep
      rw [if_neg]
      rintro ⟨hgt, hth⟩
      rcases hp with hb | hθ
      · exact absurd hgt (not_lt.mpr hb)
      · exact absurd hth (not_le.mpr hθ)
    rw [List.foldl_cons, hsel]
    exact ih (fun x hx => h x (List.mem_cons_of_mem _ hx))

/-- Behaviour of the best-match fold once a candidate has been accepted:
either nothing later beats it, or the result is the first later strict
improvement maximising the similarity. -/
lemma selFold_some_spec (θ : ℝ) (l : List (String × ℝ)) :
    ∀ (id0 : String) (s0 : ℝ), θ ≤ s0 →
      (l.foldl (selStep θ) (some id0, s0) = (some id0, s0) ∧ ∀ p ∈ l, p.2 ≤ s0) ∨
      (∃ l1 id s l2, l = l1 ++ (id, s) :: l2 ∧
        l.foldl (selStep θ) (some id0, s0) = (some id, s) ∧
        s0 < s ∧ θ ≤ s ∧ (∀ p ∈ l1, p.2 < s) ∧ (∀ p ∈ l2, p.2 ≤ s)) := by
  induction l with
  | nil =>
    intro id0 s0 h0
    exact Or.inl ⟨rfl, by simp⟩
  | cons p l ih =>
    intro id0 s0 h0
    by_cases hp : s0 < p.2
    · have hacc : selStep θ (some id0, s0) p = (some p.1, p.2) := by
        unfold selStep
        rw [if_pos ⟨hp, le_trans h0 hp.le⟩]
      rw [List.foldl_cons, hacc]
      rcases ih p.1 p.2 (le_trans h0 hp.le) with ⟨hfold, hall⟩ |
        ⟨l1, id, s, l2, hdec, hfold, hlt, hθs, h1, h2⟩
      · exact Or.inr ⟨[], p.1, p.2, l, rfl, hfold, hp, le_trans h0 hp.le, by simp, hall⟩
      · refine Or.inr ⟨p :: l1, id, s, l2, by rw [hdec, List.cons_append], hfold, lt_trans hp hlt, hθs, ?_, h2⟩
        intro x hx
        rcases List.mem_cons.mp hx with rfl | hx
        · exact hlt
        · exact h1 x hx
    · have hacc : selStep θ (some id0, s0) p = (some id0, s0) := by
        unfold selStep
        rw [if_neg]
        rintro ⟨hgt, _⟩
        exact hp hgt
      rw [List.foldl_cons, hacc]
      rcases ih id0 s0 h0 with ⟨hfold, hall⟩ |
        ⟨l1, id, s, l2, hdec, hfold, hlt, hθs, h1, h2⟩
      · refine Or.inl ⟨hfold, ?_⟩
        intro x hx
        rcases List.mem_cons.mp hx with rfl | hx
        · exact not_lt.mp hp
        · exact hall x hx
      · refine Or.inr ⟨p :: l1, id, s, l2, by rw [hdec, List.cons_append], hfold, hlt, hθs, ?_, h2⟩
        intro x hx
        rcases List.mem_cons.mp hx with rfl | hx
        · exact lt_of_le_of_lt (not_lt.mp hp) hlt
        · exact h1 x hx

/-- When some examined similarity clears the threshold, the best-match
fold returns the first entry attaining the maximum similarity. -/
lemma selFold_found (θ : ℝ) (hθ : 0 < θ) (l : List (String × ℝ))
    (h : ∃ p ∈ l, θ ≤ p.2) :
    ∃ l1 id s l2, l = l1 ++ (id, s) :: l2 ∧
      l.foldl (selStep θ) (none, 0) = (some id, s) ∧ θ ≤ s ∧
      (∀ p ∈ l1, p.2 < s) ∧ (∀ p ∈ l2, p.2 ≤ s) := by
  induction l with
  | nil => simp at h
  | cons p l ih =>
    by_cases hp : θ ≤ p.2
    · have hacc : selStep θ ((none : Option String), (0 : ℝ)) p = (some p.1, p.2) := by
        unfold selStep
        rw [if_pos ⟨lt_of_lt_of_le hθ hp, hp⟩]
      rw [List.foldl_cons, hacc]
      rcases selFold_some_spec θ l p.1 p.2 hp with ⟨hfold, hall⟩ |
        ⟨l1, id, s, l2, hdec, hfold, hlt, hθs, h1, h2⟩
      · exact ⟨[], p.1, p.2, l, rfl, hfold, hp, by simp, hall⟩
      · refine ⟨p :: l1, id, s, l2, by rw [hdec, List.cons_append], hfold, hθs, ?_, h2⟩
        intro x hx
        rcases List.mem_cons.mp hx with rfl | hx
        · exact hlt
        · exact h1 x hx
    · have hacc : selStep θ ((none : Option String), (0 : ℝ)) p = (none, 0) := by
        unfold selStep
        rw [if_neg]
        rintro ⟨_, hth⟩
        exact hp hth
      rw [List.foldl_cons, hacc]
      have h2 : ∃ x ∈ l, θ ≤ x.2 := by
        rcases h with ⟨x, hx, hθx⟩
        rcases List.mem_cons.mp hx with rfl | hx
        · exact absurd hθx hp
        · exact ⟨x, hx, hθx⟩
      rcases ih h2 with ⟨l1, id, s, l2, hdec, hfold, hθs, h1, hl2⟩
      refine ⟨p :: l1, id, s, l2, by rw [hdec, List.cons_append], hfold, hθs, ?_, hl2⟩
      intro x hx
      rcases List.mem_cons.mp hx with rfl | hx
      · exact lt_of_lt_of_le (not_le.mp hp) hθs
      · exact h1 x hx

/-- `recognize_face` returns `None` when no active employee exists. -/
lemma recognizeFace_empty (θ : ℝ) (q : List ℝ) (emps : List EmployeeRec)
    (h : (emps.filter (fun e => e.is_active)).isEmpty = true) :
    recognizeFace θ q emps = none := by
  unfold recognizeFace
  simp [h]

/-- `recognize_face` returns the fold's best match when one exists and its
id is truthy (nonempty). -/
lemma recognizeFace_fold_some (θ : ℝ) (q : List ℝ) (emps : List EmployeeRec)
    (id : String) (s : ℝ) (hid : id.isEmpty = false)
    (hne : (emps.filter (fun e => e.is_active)).isEmpty = false)
    (hfold : (simsOf q emps).foldl (selStep θ) (none, 0) = (some id, s)) :
    recognizeFace θ q emps = some (id, s) := by
  unfold recognizeFace
  dsimp only
  rw [if_neg (by simp [hne]), foldl_recognizeStep_eq]
  rw [show (emps.filter (fun e => e.is_active)).filterMap
      (fun e => (getFaceTemplateArray e).map (fun t => (e.employee_id, compareFaces q t)))
      = simsOf q emps from rfl]
  rw [hfold]
  simp [hid]

/-- `recognize_face` reports no match when the accepted best match carries
a falsy (empty-string) id: the source's final `if best_match:` check. -/
lemma recognizeFace_fold_empty_id (θ : ℝ) (q : List ℝ) (emps : List EmployeeRec)
    (id : String) (s : ℝ) (hid : id.isEmpty = true)
    (hne : (emps.filter (fun e => e.is_active)).isEmpty = false)
    (hfold : (simsOf q emps).foldl (selStep θ) (none, 0) = (some id, s)) :
    recognizeFace θ q emps = none := by
  unfold recognizeFace
  dsimp only
  rw [if_neg (by simp [hne]), foldl_recognizeStep_eq]
  rw [show (emps.filter (fun e => e.is_active)).filterMap
      (fun e => (getFaceTemplateArray e).map (fun t => (e.employee_id, compareFaces q t)))
      = simsOf q emps from rfl]
  rw [hfold]
  simp [hid]

/-- `recognize_face` returns `None` when the fold keeps an empty best
match. -/
lemma recognizeFace_fold_none (θ : ℝ) (q : List ℝ) (emps : List EmployeeRec)
    (b : ℝ)
    (hne : (emps.filter (fun e => e.is_active)).isEmpty = false)
    (hfold : (simsOf q emps).foldl (selStep θ) (none, 0) = (none, b)) :
    recognizeFace θ q emps = none := by
  unfold recognizeFace
  dsimp only
  rw [if_neg (by simp [hne]), foldl_recognizeStep_eq]
  rw [show (emps.filter (fun e => e.is_active)).filterMap
      (fun e => (getFaceTemplateArray e).map (fun t => (e.employee_id, compareFaces q t)))
      = simsOf q emps from rfl]
  rw [hfold]

/-- Claim C5 (amended): with a positive threshold, matching returns `None`
for an empty registry and whenever every examined active similarity is
below the threshold; when the active employee ids are truthy (nonempty
strings), it otherwise returns the first identity attaining the maximum
similarity that clears the threshold, with that similarity, and a registry
containing the query's own exact nonzero embedding as an active entry
yields score 1.0 (the first identity attaining it); the default threshold
is 0.4.  The truthiness proviso is forced by the source's final
`if best_match:` check, which reports an accepted best match with an
empty-string id as no match. -/
theorem recognize_face_matcher_spec (θ : ℝ) (q : List ℝ) (emps : List EmployeeRec)
    (hθ : 0 < θ) :
    (emps = [] → recognizeFace θ q emps = none) ∧
    ((∀ p ∈ simsOf q emps, p.2 < θ) → recognizeFace θ q emps = none) ∧
    ((∀ e ∈ emps, e.employee_id.isEmpty = false) →
      (∃ p ∈ simsOf q emps, θ ≤ p.2) →
      ∃ l1 id s l2, simsOf q emps = l1 ++ (id, s) :: l2 ∧
        recognizeFace θ q emps = some (id, s) ∧ θ ≤ s ∧
        (∀ p ∈ l1, p.2 < s) ∧ (∀ p ∈ l2, p.2 ≤ s)) ∧
    (θ ≤ 1 →
      (∀ e ∈ emps, e.employee_id.isEmpty = false) →
      (∃ e ∈ emps, e.is_active = true ∧ getFaceTemplateArray e = some q ∧
        ∃ x ∈ q, x ≠ 0) →
      ∃ id, recognizeFace θ q emps = some (id, 1)) ∧
    recognitionThreshold = 2/5 := by
  have partb : (∀ e ∈ emps, e.employee_id.isEmpty = false) →
      (∃ p ∈ simsOf q emps, θ ≤ p.2) →
      ∃ l1 id s l2, simsOf q emps = l1 ++ (id, s) :: l2 ∧
        recognizeFace θ q emps = some (id, s) ∧ θ ≤ s ∧
        (∀ p ∈ l1, p.2 < s) ∧ (∀ p ∈ l2, p.2 ≤ s) := by
    intro hids hex
    have hne : (emps.filter (fun e => e.is_active)).isEmpty = false := by
      rcases hex with ⟨p, hp, _⟩
      cases hemp : (emps.filter (fun e => e.is_active)).isEmpty with
      | false => rfl
      | true =>
        have hnil : emps.filter (fun e => e.is_active) = [] :=
          List.isEmpty_iff.mp hemp
        have hsim : simsOf q emps = [] := by
          unfold simsOf
          rw [hnil]
          rfl
        rw [hsim] at hp
        simp at hp
    obtain ⟨l1, id, s, l2, hdec, hfold, hθs, h1, h2⟩ := selFold_found θ hθ _ hex
    have hmemid : (id, s) ∈ simsOf q emps := by
      rw [hdec]
      exact List.mem_append_right _ (List.mem_cons_self _ _)
    rcases simsOf_fst_mem hmemid with ⟨e, he, _, hid⟩
    have hid2 : id = e.employee_id := hid
    have hidne : id.isEmpty = false := by
      rw [hid2]
      exact hids e he
    exact ⟨l1, id, s, l2, hdec,
      recognizeFace_fold_some θ q emps id s hidne hne hfold, hθs, h1, h2⟩
  refine ⟨?_, ?_, partb, ?_, by norm_num [recognitionThreshold]⟩
  · rintro rfl
    rfl
  · intro hall
    cases hemp : (emps.filter (fun e => e.is_active)).isEmpty with
    | true => exact recognizeFace_empty θ q emps hemp
    | false =>
      have hfold : (simsOf q emps).foldl (selStep θ)
          ((none : Option String), (0 : ℝ)) = (none, 0) :=
        selFold_const θ none 0 _ (fun p hp => Or.inr (hall p hp))
      exact recognizeFace_fold_none θ q emps 0 hemp hfold
  · intro hθ1 hids hself
    rcases hself with ⟨e, he, hact, htempl, hq⟩
    have hcf : compareFaces q q = 1 := compareFaces_self q hq
    have hmem : (e.employee_id, (1 : ℝ)) ∈ simsOf q emps := by
      unfold simsOf
      apply List.mem_filterMap.mpr
      refine ⟨e, List.mem_filter.mpr ⟨he, hact⟩, ?_⟩
      rw [htempl]
      simp [hcf]
    have hex : ∃ p ∈ simsOf q emps, θ ≤ p.2 := ⟨(e.employee_id, 1), hmem, hθ1⟩
    obtain ⟨l1, id, s, l2, hdec, hres, hθs, h1, h2⟩ := partb hids hex
    have hs_le : s ≤ 1 := by
      have hmem2 : (id, s) ∈ simsOf q emps := by
        rw [hdec]
        exact List.mem_append_right _ (List.mem_cons_self _ _)
      exact simsOf_snd_le_one hmem2
    have h1_le : (1 : ℝ) ≤ s := by
      have hmem3 := hmem
      rw [hdec] at hmem3
      rcases List.mem_append.mp hmem3 with hin1 | hin2
      · exact le_of_lt (h1 _ hin1)
      · rcases List.mem_cons.mp hin2 with heq | hin3
        · exact (congrArg Prod.snd heq).le
        · exact h2 _ hin3
    have hs1 : s = 1 := le_antisymm hs_le h1_le
    exact ⟨id, by rw [← hs1]; exact hres⟩

/-- Claim C5 as stated is false on the code: a registry whose only active
entry holds the query's own embedding under the empty-string id has an
examined similarity of 1.0 clearing the default threshold, yet the match
is reported as `None`, because the source's final `if best_match:` check
treats the empty string as falsy. -/
theorem recognize_face_empty_id_counterexample :
    simsOf [(1 : ℝ), 0] [emptyIdEmp] = [("", 1)] ∧
    recognitionThreshold ≤ 1 ∧
    recognizeFace recognitionThreshold [(1 : ℝ), 0] [emptyIdEmp] = none := by
  have hone : ∃ x ∈ [(1 : ℝ), 0], x ≠ 0 := ⟨1, by simp, one_ne_zero⟩
  have hcf : compareFaces [(1 : ℝ), 0] [(1 : ℝ), 0] = 1 := compareFaces_self _ hone
  have hsims : simsOf [(1 : ℝ), 0] [emptyIdEmp] = [("", 1)] := by
    unfold simsOf
    simp [emptyIdEmp, getFaceTemplateArray, hcf]
  have hfold : [(("" : String), (1 : ℝ))].foldl (selStep recognitionThreshold)
      (none, 0) = (some "", 1) := by
    have hsel : selStep recognitionThreshold ((none : Option String), (0 : ℝ))
        ("", 1) = (some "", 1) := by
      unfold selStep
      rw [if_pos ⟨by norm_num, by norm_num [recognitionThreshold]⟩]
    rw [List.foldl_cons, hsel]
    rfl
  have hne : (([emptyIdEmp]).filter (fun e => e.is_active)).isEmpty = false := by
    simp [emptyIdEmp]
  refine ⟨hsims, by norm_num [recognitionThreshold], ?_⟩
  exact recognizeFace_fold_empty_id recognitionThreshold [(1 : ℝ), 0] [emptyIdEmp]
    "" 1 rfl hne (by rw [hsims]; exact hfold)

/-- Concrete run of `recognize_face_matcher_spec`: an empty registry
yields no match at the default threshold. -/
theorem recognize_face_matcher_spec_witness :
    recognizeFace recognitionThreshold [(1 : ℝ)] [] = none :=
  (recognize_face_matcher_spec recognitionThreshold [(1 : ℝ)] []
    (by norm_num [recognitionThreshold])).1 rfl

/-- Claim C10: `verify_face` returns exactly `(False, 0.0)` — without
raising and before any template comparison — when the query template
cannot be extracted, when no enrolled active employee carries the id, and
when the found employee stores no face template. -/
theorem verify_face_early_rejects (θ : ℝ) (qt : Option (List ℝ)) (eid : String)
    (emps : List EmployeeRec) :
    (qt = none → verifyFace θ qt eid emps = (false, 0)) ∧
    ((∀ x ∈ emps, ¬(x.employee_id = eid ∧ x.is_active = true)) →
      verifyFace θ qt eid emps = (false, 0)) ∧
    (∀ em, emps.find? (fun x => x.employee_id == eid && x.is_active) = some em →
      getFaceTemplateArray em = none → verifyFace θ qt eid emps = (false, 0)) := by
  refine ⟨?_, ?_, ?_⟩
  · rintro rfl
    rfl
  · intro h
    cases qt with
    | none => rfl
    | some q =>
      have hfind : emps.find? (fun x => x.employee_id == eid && x.is_active) = none := by
        rw [List.find?_eq_none]
        intro x hx
        simpa using h x hx
      unfold verifyFace
      rw [hfind]
  · intro em hfind htempl
    cases qt with
    | none => rfl
    | some q =>
      unfold verifyFace
      rw [hfind]
      dsimp only
      rw [htempl]

/-- Concrete run of `verify_face_early_rejects`: a failed template
extraction yields `(False, 0.0)`. -/
theorem verify_face_early_rejects_witness :
    verifyFace recognitionThreshold none e1s [] = (false, 0) :=
  (verify_face_early_rejects recognitionThreshold none e1s []).1 rfl

end Facen

end
